import Mathlib

/-!
Shallow embedding of `compiler_opt/es/gradient_ascent_optimization_algorithms.py`.

The Python module implements two stateful gradient-ascent optimizers,
`MomentumOptimizer` and `AdamOptimizer`, operating on numpy float arrays.
Floating-point numbers are modelled by exact rationals (`ℚ`), numpy 1-D
arrays by `List ℚ`, and the square root used by Adam is an abstract
function parameter `sq : ℚ → ℚ` (the update rule is algebraic in it).

Python's in-place mutation together with exceptions is modelled by letting
every mutating operation return the (possibly partially) mutated state
together with either a result or an error message: a raised exception in
Python leaves mutations that happened before the raise in place, and the
embedding reproduces this ordering faithfully.

Numpy's 1-D broadcasting rule for binary elementwise operations is
embedded by `npBroadcast`: two arrays combine elementwise when the
lengths agree, a length-one array is stretched to the other length, and
any other combination raises a broadcast error.
-/

/-- Python `int()` applied to a rational: truncation toward zero. -/
def truncQ (q : ℚ) : ℤ :=
  if q < 0 then -Int.floor (-q) else Int.floor q

/-- Numpy 1-D broadcasting for a binary elementwise operation. -/
def npBroadcast (f : ℚ → ℚ → ℚ) (a b : List ℚ) : Except String (List ℚ) :=
  if a.length = b.length then Except.ok (List.zipWith f a b)
  else if a.length = 1 then Except.ok (b.map (f a.headI))
  else if b.length = 1 then Except.ok (a.map (fun x => f x b.headI))
  else Except.error "operands could not be broadcast together"

/-- Resulting length of a successful broadcast of lengths `n` and `m`. -/
def broadcastLen (n m : ℕ) : ℕ :=
  if n = m then n else if n = 1 then m else n

theorem npBroadcast_eq_zipWith (f : ℚ → ℚ → ℚ) (a b : List ℚ)
    (h : a.length = b.length) :
    npBroadcast f a b = Except.ok (List.zipWith f a b) := by
  simp [npBroadcast, h]

theorem npBroadcast_isOk_iff (f : ℚ → ℚ → ℚ) (a b : List ℚ) :
    (∃ l, npBroadcast f a b = Except.ok l) ↔
      (a.length = b.length ∨ a.length = 1 ∨ b.length = 1) := by
  unfold npBroadcast
  split_ifs with h1 h2 h3 <;> simp_all

theorem npBroadcast_ok_length (f : ℚ → ℚ → ℚ) (a b l : List ℚ)
    (h : npBroadcast f a b = Except.ok l) :
    l.length = broadcastLen a.length b.length := by
  unfold npBroadcast at h
  unfold broadcastLen
  split_ifs at h ⊢ with h1 h2 h3
  · cases h
    simp [h1]
  · cases h
    simp
  · cases h
    simp

instance {ε α : Type} [DecidableEq ε] [DecidableEq α] : DecidableEq (Except ε α) := fun x y =>
  match x, y with
  | Except.ok a, Except.ok b =>
    if h : a = b then isTrue (h ▸ rfl) else isFalse (fun hh => h (Except.ok.inj hh))
  | Except.error a, Except.error b =>
    if h : a = b then isTrue (h ▸ rfl) else isFalse (fun hh => h (Except.error.inj hh))
  | Except.ok _, Except.error _ => isFalse (fun hh => Except.noConfusion hh)
  | Except.error _, Except.ok _ => isFalse (fun hh => Except.noConfusion hh)

/-! ### MomentumOptimizer -/

/-- State of the Python class `MomentumOptimizer`: the hyperparameters set
in `__init__` together with the mutable `moving_average` array. -/
structure MomentumOptimizer where
  step_size : ℚ
  momentum : ℚ
  moving_average : List ℚ
  deriving DecidableEq

/-- `MomentumOptimizer.__init__`: the moving average starts empty. -/
def MomentumOptimizer.mk0 (step_size momentum : ℚ) : MomentumOptimizer :=
  ⟨step_size, momentum, []⟩

/-- Body of `MomentumOptimizer.run_step` after the lazy initialization and
dimension check: computes
`moving_average = momentum * moving_average + (1 - momentum) * gradient`
and returns `current_input + step_size * moving_average`, with numpy
broadcasting.  Mutations already performed are kept when an error occurs. -/
def MomentumOptimizer.runStepFrom (o : MomentumOptimizer)
    (current_input gradient : List ℚ) :
    MomentumOptimizer × Except String (List ℚ) :=
  match npBroadcast (fun x y => x + y)
      (o.moving_average.map (fun x => o.momentum * x))
      (gradient.map (fun x => (1 - o.momentum) * x)) with
  | Except.error e => (o, Except.error e)
  | Except.ok new_ma =>
    match npBroadcast (fun x y => x + y) current_input
        (new_ma.map (fun x => o.step_size * x)) with
    | Except.error e => ({ o with moving_average := new_ma }, Except.error e)
    | Except.ok out => ({ o with moving_average := new_ma }, Except.ok out)

/-- `MomentumOptimizer.run_step`: lazily initializes the moving average to
zeros of the parameter dimension, raises on a parameter-dimension mismatch
with the established state, and otherwise performs the update. -/
def MomentumOptimizer.run_step (o : MomentumOptimizer)
    (current_input gradient : List ℚ) :
    MomentumOptimizer × Except String (List ℚ) :=
  if o.moving_average.length = 0 then
    MomentumOptimizer.runStepFrom
      { o with moving_average := List.replicate current_input.length 0 }
      current_input gradient
  else if o.moving_average.length ≠ current_input.length then
    (o, Except.error "Dimensions of the parameters and moving average do not match")
  else
    MomentumOptimizer.runStepFrom o current_input gradient

/-- `MomentumOptimizer.get_state`. -/
def MomentumOptimizer.get_state (o : MomentumOptimizer) : List ℚ :=
  o.moving_average

/-- `MomentumOptimizer.set_state`. -/
def MomentumOptimizer.set_state (o : MomentumOptimizer) (state : List ℚ) :
    MomentumOptimizer :=
  { o with moving_average := state }

theorem zipWith_get (f : ℚ → ℚ → ℚ) (l r : List ℚ) (i : ℕ)
    (hz : i < (List.zipWith f l r).length) (hl : i < l.length) (hr : i < r.length) :
    (List.zipWith f l r).get ⟨i, hz⟩ = f (l.get ⟨i, hl⟩) (r.get ⟨i, hr⟩) := by
  simp [List.get_eq_getElem]

/-- When the moving average and the gradient both have the parameter
dimension, `runStepFrom` succeeds and produces the momentum update in
closed `zipWith` form. -/
theorem momentum_runStepFrom_eq (o : MomentumOptimizer) (ci g : List ℚ)
    (hma : o.moving_average.length = ci.length) (hg : g.length = ci.length) :
    o.runStepFrom ci g =
      ({ o with moving_average :=
          (List.zipWith (fun a x => o.momentum * a + (1 - o.momentum) * x)
            o.moving_average g) },
        Except.ok (List.zipWith (fun c m => c + o.step_size * m) ci
          (List.zipWith (fun a x => o.momentum * a + (1 - o.momentum) * x)
            o.moving_average g))) := by
  unfold MomentumOptimizer.runStepFrom
  have h1 : npBroadcast (fun x y => x + y)
      (o.moving_average.map (fun x => o.momentum * x))
      (g.map (fun x => (1 - o.momentum) * x)) =
      Except.ok (List.zipWith (fun a x => o.momentum * a + (1 - o.momentum) * x)
        o.moving_average g) := by
    rw [npBroadcast_eq_zipWith _ _ _ (by simp [hma, hg]), List.zipWith_map]
  have h2 : npBroadcast (fun x y => x + y) ci
      ((List.zipWith (fun a x => o.momentum * a + (1 - o.momentum) * x)
        o.moving_average g).map (fun x => o.step_size * x)) =
      Except.ok (List.zipWith (fun c m => c + o.step_size * m) ci
        (List.zipWith (fun a x => o.momentum * a + (1 - o.momentum) * x)
          o.moving_average g)) := by
    rw [npBroadcast_eq_zipWith _ _ _ (by simp [hma, hg]), List.zipWith_map_right]
  simp only [h1, h2]

/-- Elementwise form of `momentum_runStepFrom_eq`. -/
theorem momentum_runStepFrom_get (o : MomentumOptimizer) (ci g : List ℚ)
    (hma : o.moving_average.length = ci.length) (hg : g.length = ci.length) :
    ∃ out, (o.runStepFrom ci g).2 = Except.ok out ∧ out.length = ci.length ∧
      ∀ i (hi : i < ci.length) (hgi : i < g.length)
        (hmai : i < o.moving_average.length) (ho : i < out.length),
        out.get ⟨i, ho⟩ =
          ci.get ⟨i, hi⟩ + o.step_size *
            (o.momentum * o.moving_average.get ⟨i, hmai⟩ +
              (1 - o.momentum) * g.get ⟨i, hgi⟩) := by
  rw [momentum_runStepFrom_eq o ci g hma hg]
  refine ⟨_, rfl, by simp [hma, hg], ?_⟩
  intro i hi hgi hmai ho
  rw [zipWith_get _ _ _ i ho hi (by simp [hma, hg]; omega)]
  rw [zipWith_get _ _ _ i (by simp [hma, hg]; omega) hmai hgi]

/-- C8: for every dimension `D ≥ 1`, momentum coefficient in `[0,1)`,
step size, parameters and gradient of dimension `D`, the first `run_step`
call of a `MomentumOptimizer` (whose initial moving average is empty)
returns `new_params` with
`new_params[i] = current_params[i] + step_size * (1 - momentum) * gradient[i]`
for every index `i`. -/
theorem momentum_first_step (step_size momentum : ℚ)
    (hb0 : 0 ≤ momentum) (hb1 : momentum < 1) (ci g : List ℚ)
    (hD : 1 ≤ ci.length) (hg : g.length = ci.length) :
    ∃ out,
      ((MomentumOptimizer.mk0 step_size momentum).run_step ci g).2 = Except.ok out ∧
      out.length = ci.length ∧
      ∀ i (hi : i < ci.length) (hgi : i < g.length) (ho : i < out.length),
        out.get ⟨i, ho⟩ =
          ci.get ⟨i, hi⟩ + step_size * (1 - momentum) * g.get ⟨i, hgi⟩ := by
  have hred : (MomentumOptimizer.mk0 step_size momentum).run_step ci g =
      MomentumOptimizer.runStepFrom
        ⟨step_size, momentum, List.replicate ci.length 0⟩ ci g := rfl
  obtain ⟨out, hok, hlen, hget⟩ :=
    momentum_runStepFrom_get ⟨step_size, momentum, List.replicate ci.length 0⟩
      ci g (by simp) hg
  refine ⟨out, by rw [hred]; exact hok, hlen, ?_⟩
  intro i hi hgi ho
  have hmai : i < (List.replicate ci.length (0 : ℚ)).length := by simp [hi]
  have := hget i hi hgi hmai ho
  simp only [List.get_eq_getElem, List.getElem_replicate] at this
  simp only [List.get_eq_getElem]
  rw [this]
  ring

/-- C9: a `MomentumOptimizer` constructed with `momentum = 0` performs
plain gradient ascent: every `run_step` call on matching-dimension inputs
returns `current_params + step_size * gradient` elementwise, at any point
of the call sequence (empty or established moving average). -/
theorem momentum_zero_plain_ascent (o : MomentumOptimizer) (ci g : List ℚ)
    (hmom : o.momentum = 0)
    (hma : o.moving_average.length = 0 ∨ o.moving_average.length = ci.length)
    (hg : g.length = ci.length) :
    ∃ out, (o.run_step ci g).2 = Except.ok out ∧ out.length = ci.length ∧
      ∀ i (hi : i < ci.length) (hgi : i < g.length) (ho : i < out.length),
        out.get ⟨i, ho⟩ = ci.get ⟨i, hi⟩ + o.step_size * g.get ⟨i, hgi⟩ := by
  by_cases h0 : o.moving_average.length = 0
  · have hred : o.run_step ci g =
        MomentumOptimizer.runStepFrom
          { o with moving_average := List.replicate ci.length 0 } ci g := by
      unfold MomentumOptimizer.run_step
      rw [if_pos h0]
    obtain ⟨out, hok, hlen, hget⟩ :=
      momentum_runStepFrom_get
        { o with moving_average := List.replicate ci.length 0 } ci g (by simp) hg
    refine ⟨out, by rw [hred]; exact hok, hlen, ?_⟩
    intro i hi hgi ho
    have hmai : i < (List.replicate ci.length (0 : ℚ)).length := by simp [hi]
    have := hget i hi hgi hmai ho
    simp only [List.get_eq_getElem, List.getElem_replicate] at this
    simp only [List.get_eq_getElem]
    rw [this, hmom]
    ring
  · have h1 : o.moving_average.length = ci.length := by
      rcases hma with h | h
      · exact absurd h h0
      · exact h
    have hred : o.run_step ci g = o.runStepFrom ci g := by
      unfold MomentumOptimizer.run_step
      rw [if_neg h0, if_neg (fun hc => hc h1)]
    obtain ⟨out, hok, hlen, hget⟩ := momentum_runStepFrom_get o ci g h1 hg
    refine ⟨out, by rw [hred]; exact hok, hlen, ?_⟩
    intro i hi hgi ho
    have hmai : i < o.moving_average.length := by omega
    have := hget i hi hgi hmai ho
    simp only [List.get_eq_getElem] at this ⊢
    rw [this, hmom]
    ring

/-- Witness for C8 at the spec example: Momentum(0.1, 0.5) on
params `[1, 2]` and gradient `[2, 4]`. -/
theorem momentum_first_step_witness :
    (0 ≤ (1 : ℚ)/2 ∧ (1 : ℚ)/2 < 1 ∧
      1 ≤ ([1, 2] : List ℚ).length ∧
      ([2, 4] : List ℚ).length = ([1, 2] : List ℚ).length) ∧
    (∃ out,
      ((MomentumOptimizer.mk0 (1/10) (1/2)).run_step [1, 2] [2, 4]).2 =
        Except.ok out ∧
      out.length = ([1, 2] : List ℚ).length ∧
      ∀ i (hi : i < ([1, 2] : List ℚ).length)
        (hgi : i < ([2, 4] : List ℚ).length) (ho : i < out.length),
        out.get ⟨i, ho⟩ =
          ([1, 2] : List ℚ).get ⟨i, hi⟩ +
            (1/10) * (1 - 1/2) * ([2, 4] : List ℚ).get ⟨i, hgi⟩) :=
  ⟨⟨by norm_num, by norm_num, by decide, by decide⟩,
    momentum_first_step (1/10) (1/2) (by norm_num) (by norm_num) [1, 2] [2, 4]
      (by decide) (by decide)⟩

/-- Witness for C9: momentum 0, established moving average `[3]`,
params `[5]`, gradient `[7]`. -/
theorem momentum_zero_plain_ascent_witness :
    ((⟨1/10, 0, [3]⟩ : MomentumOptimizer).momentum = 0 ∧
      ((⟨1/10, 0, [3]⟩ : MomentumOptimizer).moving_average.length = 0 ∨
        (⟨1/10, 0, [3]⟩ : MomentumOptimizer).moving_average.length =
          ([5] : List ℚ).length) ∧
      ([7] : List ℚ).length = ([5] : List ℚ).length) ∧
    (∃ out,
      ((⟨1/10, 0, [3]⟩ : MomentumOptimizer).run_step [5] [7]).2 = Except.ok out ∧
      out.length = ([5] : List ℚ).length ∧
      ∀ i (hi : i < ([5] : List ℚ).length) (hgi : i < ([7] : List ℚ).length)
        (ho : i < out.length),
        out.get ⟨i, ho⟩ =
          ([5] : List ℚ).get ⟨i, hi⟩ +
            (⟨1/10, 0, [3]⟩ : MomentumOptimizer).step_size *
              ([7] : List ℚ).get ⟨i, hgi⟩) :=
  ⟨⟨rfl, Or.inr (by decide), by decide⟩,
    momentum_zero_plain_ascent ⟨1/10, 0, [3]⟩ [5] [7] rfl (Or.inr (by decide))
      (by decide)⟩

/-! ### AdamOptimizer -/

/-- State of the Python class `AdamOptimizer`: hyperparameters from
`__init__` together with the mutable first and second moment moving
averages and the integer step counter `t`. -/
structure AdamOptimizer where
  step_size : ℚ
  beta1 : ℚ
  beta2 : ℚ
  epsilon : ℚ
  first_moment_moving_average : List ℚ
  second_moment_moving_average : List ℚ
  t : ℤ
  deriving DecidableEq

/-- `AdamOptimizer.__init__`: both moving averages start empty, `t = 0`.
(The Python defaults are `beta1 = 0.9`, `beta2 = 0.999`,
`epsilon = 1e-07`; the embedding takes them as explicit arguments.) -/
def AdamOptimizer.mk0 (step_size beta1 beta2 epsilon : ℚ) : AdamOptimizer :=
  ⟨step_size, beta1, beta2, epsilon, [], [], 0⟩

/-- Body of `AdamOptimizer.run_step` after lazy initialization and the
dimension check, parameterized by the square-root function `sq`.  The
mutation order follows the Python source: first moment, second moment,
then `t`, then the output expression; mutations performed before a
broadcast error are kept. -/
def AdamOptimizer.runStepFrom (sq : ℚ → ℚ) (o : AdamOptimizer)
    (current_input gradient : List ℚ) :
    AdamOptimizer × Except String (List ℚ) :=
  match npBroadcast (fun x y => x + y)
      (o.first_moment_moving_average.map (fun x => o.beta1 * x))
      (gradient.map (fun x => (1 - o.beta1) * x)) with
  | Except.error e => (o, Except.error e)
  | Except.ok m2 =>
    match npBroadcast (fun x y => x + y)
        (o.second_moment_moving_average.map (fun x => o.beta2 * x))
        ((gradient.map (fun x => x * x)).map (fun x => (1 - o.beta2) * x)) with
    | Except.error e => ({ o with first_moment_moving_average := m2 }, Except.error e)
    | Except.ok v2 =>
      match npBroadcast (fun x y => x / y)
          (m2.map (fun x => o.step_size * (sq (1 - o.beta2 ^ (o.t + 1)) / (1 - o.beta1 ^ (o.t + 1))) * x))
          (v2.map (fun x => sq x + o.epsilon)) with
      | Except.error e => ({ o with first_moment_moving_average := m2, second_moment_moving_average := v2, t := o.t + 1 }, Except.error e)
      | Except.ok stp =>
        match npBroadcast (fun x y => x + y) current_input stp with
        | Except.error e => ({ o with first_moment_moving_average := m2, second_moment_moving_average := v2, t := o.t + 1 }, Except.error e)
        | Except.ok out => ({ o with first_moment_moving_average := m2, second_moment_moving_average := v2, t := o.t + 1 }, Except.ok out)

/-- `AdamOptimizer.run_step`: lazily initializes both moving averages to
zeros of the parameter dimension and resets `t` to 0, raises on a
parameter-dimension mismatch with the established state, and otherwise
performs the Adam update. -/
def AdamOptimizer.run_step (sq : ℚ → ℚ) (o : AdamOptimizer)
    (current_input gradient : List ℚ) :
    AdamOptimizer × Except String (List ℚ) :=
  if o.first_moment_moving_average.length = 0 then
    AdamOptimizer.runStepFrom sq
      { o with
        first_moment_moving_average := List.replicate current_input.length 0,
        second_moment_moving_average := List.replicate current_input.length 0,
        t := 0 }
      current_input gradient
  else if o.first_moment_moving_average.length ≠ current_input.length then
    (o, Except.error "Dimensions of the parameters and moving averages do not match")
  else
    AdamOptimizer.runStepFrom sq o current_input gradient

/-- `AdamOptimizer.get_state`: the concatenation `m ++ v ++ [t]`. -/
def AdamOptimizer.get_state (o : AdamOptimizer) : List ℚ :=
  o.first_moment_moving_average ++ o.second_moment_moving_average ++ [(o.t : ℚ)]

/-- `AdamOptimizer.set_state`: raises if the length is even; otherwise
assigns `m`, `v` and `t = int(state[-1])` (truncation toward zero) and
only then raises if `t` is negative — the assignments before a
negative-`t` error are kept, as in the Python source. -/
def AdamOptimizer.set_state (o : AdamOptimizer) (state : List ℚ) :
    AdamOptimizer × Option String :=
  if state.length % 2 ≠ 1 then
    (o, some "The dimension of the state should be odd")
  else
    let dim := state.length / 2
    let o1 : AdamOptimizer :=
      { o with
        first_moment_moving_average := state.take dim,
        second_moment_moving_average := (state.drop dim).take dim,
        t := truncQ (state.getLastD 0) }
    if o1.t < 0 then (o1, some "The step counter should be non-negative")
    else (o1, none)

/-- Folding `run_step` over a list of parameter/gradient input pairs,
collecting each call's result. -/
def AdamOptimizer.runSeq (sq : ℚ → ℚ) (o : AdamOptimizer) :
    List (List ℚ × List ℚ) → AdamOptimizer × List (Except String (List ℚ))
  | [] => (o, [])
  | p :: rest =>
    let r := AdamOptimizer.run_step sq o p.1 p.2
    let s := AdamOptimizer.runSeq sq r.1 rest
    (s.1, r.2 :: s.2)

/-- When both moving averages and the gradient have the parameter
dimension, `AdamOptimizer.runStepFrom` succeeds and produces the Adam
update in closed `zipWith` form. -/
theorem adam_runStepFrom_eq (sq : ℚ → ℚ) (o : AdamOptimizer) (ci g : List ℚ)
    (hm : o.first_moment_moving_average.length = ci.length)
    (hv : o.second_moment_moving_average.length = ci.length)
    (hg : g.length = ci.length) :
    AdamOptimizer.runStepFrom sq o ci g =
      ({ o with
          first_moment_moving_average :=
            (List.zipWith (fun m x => o.beta1 * m + (1 - o.beta1) * x)
              o.first_moment_moving_average g),
          second_moment_moving_average :=
            (List.zipWith (fun v x => o.beta2 * v + (1 - o.beta2) * (x * x))
              o.second_moment_moving_average g),
          t := o.t + 1 },
        Except.ok (List.zipWith (fun c s => c + s) ci
          (List.zipWith
            (fun m v =>
              o.step_size * (sq (1 - o.beta2 ^ (o.t + 1)) / (1 - o.beta1 ^ (o.t + 1))) * m /
                (sq v + o.epsilon))
            (List.zipWith (fun m x => o.beta1 * m + (1 - o.beta1) * x)
              o.first_moment_moving_average g)
            (List.zipWith (fun v x => o.beta2 * v + (1 - o.beta2) * (x * x))
              o.second_moment_moving_average g)))) := by
  unfold AdamOptimizer.runStepFrom
  have h1 : npBroadcast (fun x y => x + y)
      (o.first_moment_moving_average.map (fun x => o.beta1 * x))
      (g.map (fun x => (1 - o.beta1) * x)) =
      Except.ok (List.zipWith (fun m x => o.beta1 * m + (1 - o.beta1) * x)
        o.first_moment_moving_average g) := by
    rw [npBroadcast_eq_zipWith _ _ _ (by simp [hm, hg]), List.zipWith_map]
  have h2 : npBroadcast (fun x y => x + y)
      (o.second_moment_moving_average.map (fun x => o.beta2 * x))
      ((g.map (fun x => x * x)).map (fun x => (1 - o.beta2) * x)) =
      Except.ok (List.zipWith (fun v x => o.beta2 * v + (1 - o.beta2) * (x * x))
        o.second_moment_moving_average g) := by
    rw [npBroadcast_eq_zipWith _ _ _ (by simp [hv, hg]), List.zipWith_map,
      List.zipWith_map_right]
  have h3 : npBroadcast (fun x y => x / y)
      ((List.zipWith (fun m x => o.beta1 * m + (1 - o.beta1) * x)
          o.first_moment_moving_average g).map
        (fun x => o.step_size * (sq (1 - o.beta2 ^ (o.t + 1)) / (1 - o.beta1 ^ (o.t + 1))) * x))
      ((List.zipWith (fun v x => o.beta2 * v + (1 - o.beta2) * (x * x))
          o.second_moment_moving_average g).map
        (fun x => sq x + o.epsilon)) =
      Except.ok (List.zipWith
        (fun m v =>
          o.step_size * (sq (1 - o.beta2 ^ (o.t + 1)) / (1 - o.beta1 ^ (o.t + 1))) * m /
            (sq v + o.epsilon))
        (List.zipWith (fun m x => o.beta1 * m + (1 - o.beta1) * x)
          o.first_moment_moving_average g)
        (List.zipWith (fun v x => o.beta2 * v + (1 - o.beta2) * (x * x))
          o.second_moment_moving_average g)) := by
    rw [npBroadcast_eq_zipWith _ _ _ (by simp [hm, hv, hg]), List.zipWith_map]
  have h4 : npBroadcast (fun x y => x + y) ci
      (List.zipWith
        (fun m v =>
          o.step_size * (sq (1 - o.beta2 ^ (o.t + 1)) / (1 - o.beta1 ^ (o.t + 1))) * m /
            (sq v + o.epsilon))
        (List.zipWith (fun m x => o.beta1 * m + (1 - o.beta1) * x)
          o.first_moment_moving_average g)
        (List.zipWith (fun v x => o.beta2 * v + (1 - o.beta2) * (x * x))
          o.second_moment_moving_average g)) =
      Except.ok (List.zipWith (fun c s => c + s) ci
        (List.zipWith
          (fun m v =>
            o.step_size * (sq (1 - o.beta2 ^ (o.t + 1)) / (1 - o.beta1 ^ (o.t + 1))) * m /
              (sq v + o.epsilon))
          (List.zipWith (fun m x => o.beta1 * m + (1 - o.beta1) * x)
            o.first_moment_moving_average g)
          (List.zipWith (fun v x => o.beta2 * v + (1 - o.beta2) * (x * x))
            o.second_moment_moving_average g))) := by
    rw [npBroadcast_eq_zipWith _ _ _ (by simp [hm, hv, hg])]
  simp only [h1, h2, h3, h4]

/-- C2: for every `AdamOptimizer` with initialized state of dimension `D`
and parameter/gradient vectors of dimension `D`, `run_step` updates the
state and output exactly by the recurrence
`m = beta1*m + (1-beta1)*g`, `v = beta2*v + (1-beta2)*g^2`, `t = t+1`,
`scale = sqrt(1 - beta2^t)/(1 - beta1^t)`, and returns
`current_params + step_size * scale * m / (sqrt(v) + epsilon)`
elementwise (over the abstract square root `sq`). -/
theorem adam_run_step_recurrence (sq : ℚ → ℚ) (o : AdamOptimizer) (D : ℕ)
    (hD : 1 ≤ D) (hm : o.first_moment_moving_average.length = D)
    (hv : o.second_moment_moving_average.length = D)
    (ci g : List ℚ) (hci : ci.length = D) (hg : g.length = D) :
    AdamOptimizer.run_step sq o ci g =
      ({ o with
          first_moment_moving_average :=
            (List.zipWith (fun m x => o.beta1 * m + (1 - o.beta1) * x)
              o.first_moment_moving_average g),
          second_moment_moving_average :=
            (List.zipWith (fun v x => o.beta2 * v + (1 - o.beta2) * (x * x))
              o.second_moment_moving_average g),
          t := o.t + 1 },
        Except.ok (List.zipWith (fun c s => c + s) ci
          (List.zipWith
            (fun m v =>
              o.step_size * (sq (1 - o.beta2 ^ (o.t + 1)) / (1 - o.beta1 ^ (o.t + 1))) * m /
                (sq v + o.epsilon))
            (List.zipWith (fun m x => o.beta1 * m + (1 - o.beta1) * x)
              o.first_moment_moving_average g)
            (List.zipWith (fun v x => o.beta2 * v + (1 - o.beta2) * (x * x))
              o.second_moment_moving_average g)))) := by
  have hred : AdamOptimizer.run_step sq o ci g = AdamOptimizer.runStepFrom sq o ci g := by
    unfold AdamOptimizer.run_step
    rw [if_neg (by omega), if_neg (fun hc => hc (by omega))]
  rw [hred]
  exact adam_runStepFrom_eq sq o ci g (by omega) (by omega) (by omega)

/-- Witness for C2: Adam with step size 1, `beta1 = beta2 = 0`,
`epsilon = 1`, established state `m = [2]`, `v = [3]`, `t = 0`, identity
square root, params `[5]`, gradient `[7]`. -/
theorem adam_run_step_recurrence_witness :
    (1 ≤ 1 ∧ ([2] : List ℚ).length = 1 ∧ ([3] : List ℚ).length = 1 ∧
      ([5] : List ℚ).length = 1 ∧ ([7] : List ℚ).length = 1) ∧
    AdamOptimizer.run_step (fun q => q) ⟨1, 0, 0, 1, [2], [3], 0⟩ [5] [7] =
      (⟨1, 0, 0, 1,
        (List.zipWith (fun m x => (0 : ℚ) * m + (1 - 0) * x) [2] [7]),
        (List.zipWith (fun v x => (0 : ℚ) * v + (1 - 0) * (x * x)) [3] [7]),
        (0 : ℤ) + 1⟩,
       Except.ok (List.zipWith (fun c s => c + s) [5]
         (List.zipWith
           (fun m v =>
             (1 : ℚ) * ((1 - (0 : ℚ) ^ ((0 : ℤ) + 1)) / (1 - (0 : ℚ) ^ ((0 : ℤ) + 1))) * m /
               (v + 1))
           (List.zipWith (fun m x => (0 : ℚ) * m + (1 - 0) * x) [2] [7])
           (List.zipWith (fun v x => (0 : ℚ) * v + (1 - 0) * (x * x)) [3] [7])))) :=
  ⟨⟨le_refl 1, rfl, rfl, rfl, rfl⟩,
    adam_run_step_recurrence (fun q => q) ⟨1, 0, 0, 1, [2], [3], 0⟩ 1 (le_refl 1)
      rfl rfl [5] [7] rfl rfl⟩

/-- C7: `get_state` returns exactly the concatenation `[m..., v..., t]`
(first moment, then second moment, then the step counter last) as a flat
sequence of length `2*D + 1`. -/
theorem adam_get_state_layout (o : AdamOptimizer) (D : ℕ)
    (hm : o.first_moment_moving_average.length = D)
    (hv : o.second_moment_moving_average.length = D) :
    o.get_state =
      o.first_moment_moving_average ++ o.second_moment_moving_average ++
        [(o.t : ℚ)] ∧
    o.get_state.length = 2 * D + 1 := by
  constructor
  · rfl
  · simp only [AdamOptimizer.get_state, List.length_append, List.length_cons,
      List.length_nil, hm, hv]
    omega

/-- Witness for C7 at a concrete dimension-1 Adam state. -/
theorem adam_get_state_layout_witness :
    (((⟨1, 2, 3, 4, [5], [6], 7⟩ : AdamOptimizer).first_moment_moving_average.length = 1) ∧
      ((⟨1, 2, 3, 4, [5], [6], 7⟩ : AdamOptimizer).second_moment_moving_average.length = 1)) ∧
    ((⟨1, 2, 3, 4, [5], [6], 7⟩ : AdamOptimizer).get_state =
        (⟨1, 2, 3, 4, [5], [6], 7⟩ : AdamOptimizer).first_moment_moving_average ++
          (⟨1, 2, 3, 4, [5], [6], 7⟩ : AdamOptimizer).second_moment_moving_average ++
          [((⟨1, 2, 3, 4, [5], [6], 7⟩ : AdamOptimizer).t : ℚ)] ∧
      (⟨1, 2, 3, 4, [5], [6], 7⟩ : AdamOptimizer).get_state.length = 2 * 1 + 1) :=
  ⟨⟨rfl, rfl⟩, adam_get_state_layout ⟨1, 2, 3, 4, [5], [6], 7⟩ 1 rfl rfl⟩

/-- C3: for both variants, once a non-empty state of dimension `D` is
established, a `run_step` call whose parameter vector has a different
dimension raises the dimension-mismatch error and performs no update of
the accumulators (the state returned is exactly the old state). -/
theorem run_step_param_dim_mismatch (om : MomentumOptimizer) (oa : AdamOptimizer)
    (sq : ℚ → ℚ) (ci g ci2 g2 : List ℚ)
    (hm0 : om.moving_average.length ≠ 0)
    (hmne : om.moving_average.length ≠ ci.length)
    (ha0 : oa.first_moment_moving_average.length ≠ 0)
    (hane : oa.first_moment_moving_average.length ≠ ci2.length) :
    om.run_step ci g =
      (om, Except.error "Dimensions of the parameters and moving average do not match") ∧
    AdamOptimizer.run_step sq oa ci2 g2 =
      (oa, Except.error "Dimensions of the parameters and moving averages do not match") := by
  constructor
  · unfold MomentumOptimizer.run_step
    rw [if_neg hm0, if_pos hmne]
  · unfold AdamOptimizer.run_step
    rw [if_neg ha0, if_pos hane]

/-- Witness for C3 at the spec example: dimension 3 established, then a
2-element parameter vector, for both variants. -/
theorem run_step_param_dim_mismatch_witness :
    ((⟨1, 0, [0, 0, 0]⟩ : MomentumOptimizer).moving_average.length ≠ 0 ∧
      (⟨1, 0, [0, 0, 0]⟩ : MomentumOptimizer).moving_average.length ≠
        ([1, 2] : List ℚ).length ∧
      (⟨1, 0, 0, 1, [0, 0, 0], [0, 0, 0], 1⟩ : AdamOptimizer).first_moment_moving_average.length ≠ 0 ∧
      (⟨1, 0, 0, 1, [0, 0, 0], [0, 0, 0], 1⟩ : AdamOptimizer).first_moment_moving_average.length ≠
        ([1, 2] : List ℚ).length) ∧
    ((⟨1, 0, [0, 0, 0]⟩ : MomentumOptimizer).run_step [1, 2] [0] =
      (⟨1, 0, [0, 0, 0]⟩,
        Except.error "Dimensions of the parameters and moving average do not match") ∧
    AdamOptimizer.run_step (fun q => q) ⟨1, 0, 0, 1, [0, 0, 0], [0, 0, 0], 1⟩ [1, 2] [0] =
      (⟨1, 0, 0, 1, [0, 0, 0], [0, 0, 0], 1⟩,
        Except.error "Dimensions of the parameters and moving averages do not match")) :=
  ⟨⟨by decide, by decide, by decide, by decide⟩,
    run_step_param_dim_mismatch ⟨1, 0, [0, 0, 0]⟩ ⟨1, 0, 0, 1, [0, 0, 0], [0, 0, 0], 1⟩
      (fun q => q) [1, 2] [0] [1, 2] [0] (by decide) (by decide) (by decide) (by decide)⟩

/-- With an established moving average of the parameter dimension,
`MomentumOptimizer.runStepFrom` succeeds whenever the gradient length is
broadcast-compatible (equal, equal to one, or parameter dimension one). -/
theorem momentum_runStepFrom_ok (o : MomentumOptimizer) (ci g : List ℚ)
    (hma : o.moving_average.length = ci.length)
    (hc : g.length = ci.length ∨ g.length = 1 ∨ ci.length = 1) :
    ∃ σ out, o.runStepFrom ci g = (σ, Except.ok out) := by
  obtain ⟨l, hl⟩ := (npBroadcast_isOk_iff (fun x y => x + y)
      (o.moving_average.map (fun x => o.momentum * x))
      (g.map (fun x => (1 - o.momentum) * x))).mpr (by
    simp only [List.length_map, hma]
    rcases hc with h | h | h
    · exact Or.inl h.symm
    · exact Or.inr (Or.inr h)
    · exact Or.inr (Or.inl h))
  have hllen : l.length = broadcastLen ci.length g.length := by
    have := npBroadcast_ok_length _ _ _ _ hl
    simpa [hma] using this
  obtain ⟨l2, hl2⟩ := (npBroadcast_isOk_iff (fun x y => x + y) ci
      (l.map (fun x => o.step_size * x))).mpr (by
    simp only [List.length_map, hllen]
    unfold broadcastLen
    rcases hc with h | h | h <;> split_ifs <;> omega)
  have hfin : o.runStepFrom ci g = ({ o with moving_average := l }, Except.ok l2) := by
    unfold MomentumOptimizer.runStepFrom
    simp only [hl, hl2]
  exact ⟨_, _, hfin⟩

/-- With an established moving average of the parameter dimension,
`MomentumOptimizer.runStepFrom` raises the numpy broadcast error whenever
the gradient length is broadcast-incompatible, leaving the state
untouched. -/
theorem momentum_runStepFrom_error (o : MomentumOptimizer) (ci g : List ℚ)
    (hma : o.moving_average.length = ci.length)
    (hc : ¬(g.length = ci.length ∨ g.length = 1 ∨ ci.length = 1)) :
    o.runStepFrom ci g =
      (o, Except.error "operands could not be broadcast together") := by
  push_neg at hc
  obtain ⟨hc1, hc2, hc3⟩ := hc
  have herr : npBroadcast (fun x y => x + y)
      (o.moving_average.map (fun x => o.momentum * x))
      (g.map (fun x => (1 - o.momentum) * x)) =
      Except.error "operands could not be broadcast together" := by
    unfold npBroadcast
    rw [if_neg (by simp only [List.length_map, hma]; omega),
      if_neg (by simp only [List.length_map, hma]; omega),
      if_neg (by simp only [List.length_map]; omega)]
  unfold MomentumOptimizer.runStepFrom
  simp only [herr]

/-- With established moving averages of the parameter dimension,
`AdamOptimizer.runStepFrom` succeeds whenever the gradient length is
broadcast-compatible. -/
theorem adam_runStepFrom_ok (sq : ℚ → ℚ) (o : AdamOptimizer) (ci g : List ℚ)
    (hm : o.first_moment_moving_average.length = ci.length)
    (hv : o.second_moment_moving_average.length = ci.length)
    (hc : g.length = ci.length ∨ g.length = 1 ∨ ci.length = 1) :
    ∃ σ out, AdamOptimizer.runStepFrom sq o ci g = (σ, Except.ok out) := by
  have hcond : (ci.length = g.length ∨ ci.length = 1 ∨ g.length = 1) := by
    rcases hc with h | h | h
    · exact Or.inl h.symm
    · exact Or.inr (Or.inr h)
    · exact Or.inr (Or.inl h)
  obtain ⟨m2, h1⟩ := (npBroadcast_isOk_iff (fun x y => x + y)
      (o.first_moment_moving_average.map (fun x => o.beta1 * x))
      (g.map (fun x => (1 - o.beta1) * x))).mpr (by
    simpa only [List.length_map, hm] using hcond)
  obtain ⟨v2, h2⟩ := (npBroadcast_isOk_iff (fun x y => x + y)
      (o.second_moment_moving_average.map (fun x => o.beta2 * x))
      ((g.map (fun x => x * x)).map (fun x => (1 - o.beta2) * x))).mpr (by
    simpa only [List.length_map, hv] using hcond)
  have hm2 : m2.length = broadcastLen ci.length g.length := by
    have := npBroadcast_ok_length _ _ _ _ h1
    simpa [hm] using this
  have hv2 : v2.length = broadcastLen ci.length g.length := by
    have := npBroadcast_ok_length _ _ _ _ h2
    simpa [hv] using this
  have h3 := npBroadcast_eq_zipWith (fun x y => x / y)
    (m2.map (fun x =>
      o.step_size * (sq (1 - o.beta2 ^ (o.t + 1)) / (1 - o.beta1 ^ (o.t + 1))) * x))
    (v2.map (fun x => sq x + o.epsilon))
    (by simp [hm2, hv2])
  obtain ⟨out, h4⟩ := (npBroadcast_isOk_iff (fun x y => x + y) ci
      (List.zipWith (fun x y => x / y)
        (m2.map (fun x =>
          o.step_size * (sq (1 - o.beta2 ^ (o.t + 1)) / (1 - o.beta1 ^ (o.t + 1))) * x))
        (v2.map (fun x => sq x + o.epsilon)))).mpr (by
    simp only [List.length_zipWith, List.length_map, hm2, hv2]
    unfold broadcastLen
    rcases hc with h | h | h <;> split_ifs <;> omega)
  have hfin : AdamOptimizer.runStepFrom sq o ci g =
      ({ o with first_moment_moving_average := m2, second_moment_moving_average := v2, t := o.t + 1 }, Except.ok out) := by
    unfold AdamOptimizer.runStepFrom
    simp only [h1, h2, h3, h4]
  exact ⟨_, _, hfin⟩

/-- With established moving averages of the parameter dimension,
`AdamOptimizer.runStepFrom` raises the numpy broadcast error whenever the
gradient length is broadcast-incompatible, leaving the state untouched. -/
theorem adam_runStepFrom_error (sq : ℚ → ℚ) (o : AdamOptimizer) (ci g : List ℚ)
    (hm : o.first_moment_moving_average.length = ci.length)
    (hc : ¬(g.length = ci.length ∨ g.length = 1 ∨ ci.length = 1)) :
    AdamOptimizer.runStepFrom sq o ci g =
      (o, Except.error "operands could not be broadcast together") := by
  push_neg at hc
  obtain ⟨hc1, hc2, hc3⟩ := hc
  have herr : npBroadcast (fun x y => x + y)
      (o.first_moment_moving_average.map (fun x => o.beta1 * x))
      (g.map (fun x => (1 - o.beta1) * x)) =
      Except.error "operands could not be broadcast together" := by
    unfold npBroadcast
    rw [if_neg (by simp only [List.length_map, hm]; omega),
      if_neg (by simp only [List.length_map, hm]; omega),
      if_neg (by simp only [List.length_map]; omega)]
  unfold AdamOptimizer.runStepFrom
  simp only [herr]

/-- C4 counterexample: with established dimension `D = 3`, a 1-element
gradient does not make `run_step` fail — numpy broadcasting silently
stretches it (here: momentum 0 and step size 1, so the gradient value 5
is added to every parameter), contradicting the claim that every
gradient-dimension mismatch is a reportable error. -/
theorem gradient_dim_counterexample :
    MomentumOptimizer.run_step ⟨1, 0, [1, 2, 3]⟩ [1, 2, 3] [5] =
      (⟨1, 0, [5, 5, 5]⟩, Except.ok [6, 7, 8]) := by
  norm_num [MomentumOptimizer.run_step, MomentumOptimizer.runStepFrom, npBroadcast,
    List.headI]

/-- C4 (amended): for both variants with established state of dimension
`D ≥ 1` and a matching parameter vector, a `run_step` call with gradient
length `G` fails (with numpy's broadcast error) iff `G ∉ {D, 1}` and
`D ≠ 1`; a 1-element gradient, or a dimension-1 state, is silently
broadcast and the call succeeds. -/
theorem gradient_dim_amended (om : MomentumOptimizer) (oa : AdamOptimizer)
    (sq : ℚ → ℚ) (ci g : List ℚ) (D : ℕ) (hD : 1 ≤ D)
    (hmom : om.moving_average.length = D)
    (ham : oa.first_moment_moving_average.length = D)
    (hav : oa.second_moment_moving_average.length = D)
    (hci : ci.length = D) :
    ((∃ e, (om.run_step ci g).2 = Except.error e) ↔
      (g.length ≠ D ∧ g.length ≠ 1 ∧ D ≠ 1)) ∧
    ((∃ e, (AdamOptimizer.run_step sq oa ci g).2 = Except.error e) ↔
      (g.length ≠ D ∧ g.length ≠ 1 ∧ D ≠ 1)) := by
  have hredm : om.run_step ci g = om.runStepFrom ci g := by
    unfold MomentumOptimizer.run_step
    rw [if_neg (by omega), if_neg (fun hc => hc (by omega))]
  have hreda : AdamOptimizer.run_step sq oa ci g =
      AdamOptimizer.runStepFrom sq oa ci g := by
    unfold AdamOptimizer.run_step
    rw [if_neg (by omega), if_neg (fun hc => hc (by omega))]
  by_cases hc : g.length = ci.length ∨ g.length = 1 ∨ ci.length = 1
  · obtain ⟨σ1, out1, h1⟩ := momentum_runStepFrom_ok om ci g (by omega) hc
    obtain ⟨σ2, out2, h2⟩ := adam_runStepFrom_ok sq oa ci g (by omega) (by omega) hc
    constructor
    · rw [hredm, h1]
      constructor
      · rintro ⟨e, he⟩
        simp at he
      · rintro ⟨hn1, hn2, hn3⟩
        rcases hc with h | h | h <;> omega
    · rw [hreda, h2]
      constructor
      · rintro ⟨e, he⟩
        simp at he
      · rintro ⟨hn1, hn2, hn3⟩
        rcases hc with h | h | h <;> omega
  · have h1 := momentum_runStepFrom_error om ci g (by omega) hc
    have h2 := adam_runStepFrom_error sq oa ci g (by omega) hc
    push_neg at hc
    obtain ⟨hc1, hc2, hc3⟩ := hc
    constructor
    · rw [hredm, h1]
      constructor
      · intro _
        exact ⟨by omega, by omega, by omega⟩
      · intro _
        exact ⟨_, rfl⟩
    · rw [hreda, h2]
      constructor
      · intro _
        exact ⟨by omega, by omega, by omega⟩
      · intro _
        exact ⟨_, rfl⟩

/-- Witness for the amended C4: established dimension 3, gradient of
length 2 — both variants fail with the broadcast error. -/
theorem gradient_dim_amended_witness :
    (1 ≤ 3 ∧ (⟨1, 0, [0, 0, 0]⟩ : MomentumOptimizer).moving_average.length = 3 ∧
      (⟨1, 0, 0, 1, [0, 0, 0], [0, 0, 0], 1⟩ : AdamOptimizer).first_moment_moving_average.length = 3 ∧
      (⟨1, 0, 0, 1, [0, 0, 0], [0, 0, 0], 1⟩ : AdamOptimizer).second_moment_moving_average.length = 3 ∧
      ([1, 2, 3] : List ℚ).length = 3) ∧
    (((∃ e, ((⟨1, 0, [0, 0, 0]⟩ : MomentumOptimizer).run_step [1, 2, 3] [1, 2]).2 =
        Except.error e) ↔
      (([1, 2] : List ℚ).length ≠ 3 ∧ ([1, 2] : List ℚ).length ≠ 1 ∧ 3 ≠ 1)) ∧
    ((∃ e, (AdamOptimizer.run_step (fun q => q)
        ⟨1, 0, 0, 1, [0, 0, 0], [0, 0, 0], 1⟩ [1, 2, 3] [1, 2]).2 = Except.error e) ↔
      (([1, 2] : List ℚ).length ≠ 3 ∧ ([1, 2] : List ℚ).length ≠ 1 ∧ 3 ≠ 1))) :=
  ⟨⟨by decide, by decide, by decide, by decide, by decide⟩,
    gradient_dim_amended ⟨1, 0, [0, 0, 0]⟩ ⟨1, 0, 0, 1, [0, 0, 0], [0, 0, 0], 1⟩
      (fun q => q) [1, 2, 3] [1, 2] 3 (by decide) (by decide) (by decide)
      (by decide) (by decide)⟩

theorem truncQ_intCast (n : ℤ) : truncQ (n : ℚ) = n := by
  unfold truncQ
  split_ifs with h
  · rw [← Int.cast_neg, Int.floor_intCast]
    omega
  · rw [Int.floor_intCast]

theorem truncQ_nonneg (q : ℚ) (h : 0 ≤ q) : 0 ≤ truncQ q := by
  unfold truncQ
  rw [if_neg (not_lt.mpr h)]
  exact Int.floor_nonneg.mpr h

theorem truncQ_neg_frac (q : ℚ) (h1 : -1 < q) (h2 : q < 0) : truncQ q = 0 := by
  unfold truncQ
  rw [if_pos h2]
  have h0 : Int.floor (-q) = 0 := by
    rw [Int.floor_eq_zero_iff, Set.mem_Ico]
    constructor <;> linarith
  rw [h0]
  rfl

/-- C5 counterexample: the state sequence `[0, 0, -1/2]` has a negative
last element `s[-1] = -1/2`, yet `set_state` succeeds and stores step
counter 0: the code truncates `int(state[-1])` toward zero before the
non-negativity check, so "fails whenever the recovered `t = s[-1]` is
negative" is false as literally stated. -/
theorem adam_set_state_negative_fraction_counterexample :
    (AdamOptimizer.set_state ⟨1, 2, 3, 4, [], [], 0⟩ [0, 0, -(1/2)]).2 = none ∧
    (AdamOptimizer.set_state ⟨1, 2, 3, 4, [], [], 0⟩ [0, 0, -(1/2)]).1.t = 0 := by
  have htr : truncQ (-(1/2)) = 0 := truncQ_neg_frac _ (by norm_num) (by norm_num)
  have h : AdamOptimizer.set_state ⟨1, 2, 3, 4, [], [], 0⟩ [0, 0, -(1/2)] =
      (⟨1, 2, 3, 4, [0], [0], 0⟩, none) := by
    simp only [AdamOptimizer.set_state]
    norm_num [List.getLastD, htr]
  rw [h]
  exact ⟨rfl, rfl⟩

/-- C5 (amended): `set_state(s)` succeeds iff `len(s)` is odd and the
recovered step counter `int(s[-1])` (truncation toward zero) is
non-negative; an even length gives the odd-dimension error, an odd length
with negative truncated counter gives the non-negativity error, and on
success the state is split as `m = s[0:D]`, `v = s[D:2D]`,
`t = int(s[-1])` with `D = (len(s)-1)/2`. -/
theorem adam_set_state_validation (s : List ℚ) (o : AdamOptimizer) :
    ((o.set_state s).2 = none ↔
      (s.length % 2 = 1 ∧ 0 ≤ truncQ (s.getLastD 0))) ∧
    (s.length % 2 = 0 →
      (o.set_state s).2 = some "The dimension of the state should be odd") ∧
    (s.length % 2 = 1 → truncQ (s.getLastD 0) < 0 →
      (o.set_state s).2 = some "The step counter should be non-negative") ∧
    (s.length % 2 = 1 → 0 ≤ truncQ (s.getLastD 0) →
      (o.set_state s).1 = { o with first_moment_moving_average := s.take (s.length / 2), second_moment_moving_average := (s.drop (s.length / 2)).take (s.length / 2), t := truncQ (s.getLastD 0) }) := by
  simp only [AdamOptimizer.set_state]
  by_cases hodd : s.length % 2 = 1
  · rw [if_neg (by omega)]
    by_cases hneg : truncQ (s.getLastD 0) < 0
    · rw [if_pos hneg]
      refine ⟨?_, ?_, ?_, ?_⟩
      · constructor
        · intro h
          simp at h
        · rintro ⟨_, h2⟩
          omega
      · intro h
        omega
      · intro _ _
        rfl
      · intro _ h
        exact absurd h (by omega)
    · rw [if_neg hneg]
      refine ⟨?_, ?_, ?_, ?_⟩
      · constructor
        · intro _
          exact ⟨hodd, by omega⟩
        · intro _
          rfl
      · intro h
        omega
      · intro _ h
        omega
      · intro _ _
        rfl
  · rw [if_pos (by omega)]
    refine ⟨?_, ?_, ?_, ?_⟩
    · constructor
      · intro h
        simp at h
      · rintro ⟨h, _⟩
        omega
    · intro _
      rfl
    · intro h
      omega
    · intro h
      omega

/-- Witness for the amended C5 at `s = [2]` (odd length, `int(2) = 2 ≥ 0`)
and a concrete optimizer. -/
theorem adam_set_state_validation_witness :
    (((⟨1, 0, 0, 1, [], [], 0⟩ : AdamOptimizer).set_state [2]).2 = none ↔
      (([2] : List ℚ).length % 2 = 1 ∧
        0 ≤ truncQ (([2] : List ℚ).getLastD 0))) ∧
    (([2] : List ℚ).length % 2 = 0 →
      ((⟨1, 0, 0, 1, [], [], 0⟩ : AdamOptimizer).set_state [2]).2 =
        some "The dimension of the state should be odd") ∧
    (([2] : List ℚ).length % 2 = 1 →
      truncQ (([2] : List ℚ).getLastD 0) < 0 →
      ((⟨1, 0, 0, 1, [], [], 0⟩ : AdamOptimizer).set_state [2]).2 =
        some "The step counter should be non-negative") ∧
    (([2] : List ℚ).length % 2 = 1 →
      0 ≤ truncQ (([2] : List ℚ).getLastD 0) →
      ((⟨1, 0, 0, 1, [], [], 0⟩ : AdamOptimizer).set_state [2]).1 =
        { (⟨1, 0, 0, 1, [], [], 0⟩ : AdamOptimizer) with first_moment_moving_average := ([2] : List ℚ).take (([2] : List ℚ).length / 2), second_moment_moving_average := (([2] : List ℚ).drop (([2] : List ℚ).length / 2)).take (([2] : List ℚ).length / 2), t := truncQ (([2] : List ℚ).getLastD 0) }) :=
  adam_set_state_validation [2] ⟨1, 0, 0, 1, [], [], 0⟩

/-- C6 counterexample: `set_state [0, 0, -1]` fails with the
non-negativity error, yet the optimizer state is not preserved: prior
state `m = [5]`, `v = [6]`, `t = 3` has been overwritten with `m = [0]`,
`v = [0]`, `t = -1` before the error is raised. -/
theorem adam_set_state_not_atomic_counterexample :
    AdamOptimizer.set_state ⟨1, 2, 3, 4, [5], [6], 3⟩ [0, 0, -1] =
      (⟨1, 2, 3, 4, [0], [0], -1⟩,
        some "The step counter should be non-negative") := by
  have htr : truncQ (-1) = -1 := by
    have h := truncQ_intCast (-1)
    push_cast at h
    exact h
  simp only [AdamOptimizer.set_state]
  norm_num [List.getLastD, htr]

/-- C6 (amended): when `set_state` fails, all-or-nothing holds only for
the even-length (parity) failure, where the prior state is preserved; a
failure on a negative recovered step counter leaves the moving averages
and the step counter already overwritten with the new values. -/
theorem adam_set_state_atomicity_amended (s : List ℚ) (o : AdamOptimizer)
    (hfail : (o.set_state s).2.isSome = true) :
    (s.length % 2 = 0 ∧ (o.set_state s).1 = o) ∨
    (s.length % 2 = 1 ∧ truncQ (s.getLastD 0) < 0 ∧
      (o.set_state s).1 = { o with first_moment_moving_average := s.take (s.length / 2), second_moment_moving_average := (s.drop (s.length / 2)).take (s.length / 2), t := truncQ (s.getLastD 0) }) := by
  simp only [AdamOptimizer.set_state] at hfail ⊢
  by_cases hodd : s.length % 2 = 1
  · rw [if_neg (by omega)] at hfail ⊢
    by_cases hneg : truncQ (s.getLastD 0) < 0
    · rw [if_pos hneg]
      exact Or.inr ⟨hodd, hneg, rfl⟩
    · rw [if_neg hneg] at hfail
      simp at hfail
  · rw [if_pos (by omega)]
    exact Or.inl ⟨by omega, rfl⟩

/-- Witness for the amended C6: even-length payload `[1, 2]` — the call
fails and the prior state is preserved. -/
theorem adam_set_state_atomicity_amended_witness :
    (((⟨1, 2, 3, 4, [9], [9], 2⟩ : AdamOptimizer).set_state [1, 2]).2.isSome = true) ∧
    ((([1, 2] : List ℚ).length % 2 = 0 ∧
        ((⟨1, 2, 3, 4, [9], [9], 2⟩ : AdamOptimizer).set_state [1, 2]).1 =
          ⟨1, 2, 3, 4, [9], [9], 2⟩) ∨
      (([1, 2] : List ℚ).length % 2 = 1 ∧
        truncQ (([1, 2] : List ℚ).getLastD 0) < 0 ∧
        ((⟨1, 2, 3, 4, [9], [9], 2⟩ : AdamOptimizer).set_state [1, 2]).1 =
          { (⟨1, 2, 3, 4, [9], [9], 2⟩ : AdamOptimizer) with first_moment_moving_average := ([1, 2] : List ℚ).take (([1, 2] : List ℚ).length / 2), second_moment_moving_average := (([1, 2] : List ℚ).drop (([1, 2] : List ℚ).length / 2)).take (([1, 2] : List ℚ).length / 2), t := truncQ (([1, 2] : List ℚ).getLastD 0) })) :=
  ⟨by simp [AdamOptimizer.set_state],
    adam_set_state_atomicity_amended [1, 2] ⟨1, 2, 3, 4, [9], [9], 2⟩
      (by simp [AdamOptimizer.set_state])⟩

/-- C10: `set_state` converts the trailing element to an integer by
truncation toward zero before the non-negativity check: for every
odd-length state whose last element lies strictly between -1 and 0 the
call succeeds with step counter 0, and for every non-negative last
element it succeeds with the (truncated) counter `int(s[-1])`. -/
theorem adam_set_state_truncation (s : List ℚ) (o : AdamOptimizer)
    (hodd : s.length % 2 = 1) :
    (-1 < s.getLastD 0 → s.getLastD 0 < 0 →
      (o.set_state s).2 = none ∧ (o.set_state s).1.t = 0) ∧
    (0 ≤ s.getLastD 0 →
      (o.set_state s).2 = none ∧ (o.set_state s).1.t = truncQ (s.getLastD 0)) := by
  simp only [AdamOptimizer.set_state]
  rw [if_neg (by omega)]
  constructor
  · intro h1 h2
    have htr := truncQ_neg_frac _ h1 h2
    rw [if_neg (by omega)]
    exact ⟨rfl, htr⟩
  · intro h
    have htr := truncQ_nonneg _ h
    rw [if_neg (by omega)]
    exact ⟨rfl, rfl⟩

/-- Witness for C10 at `s = [3, 3, -3/4]`: odd length, last element in
`(-1, 0)`, so `set_state` succeeds with step counter 0. -/
theorem adam_set_state_truncation_witness :
    (([3, 3, -(3/4)] : List ℚ).length % 2 = 1 ∧
      -1 < ([3, 3, -(3/4)] : List ℚ).getLastD 0 ∧
      ([3, 3, -(3/4)] : List ℚ).getLastD 0 < 0) ∧
    (((⟨1, 1, 1, 1, [4], [4], 9⟩ : AdamOptimizer).set_state [3, 3, -(3/4)]).2 = none ∧
      ((⟨1, 1, 1, 1, [4], [4], 9⟩ : AdamOptimizer).set_state [3, 3, -(3/4)]).1.t = 0) :=
  ⟨⟨by decide, by norm_num [List.getLastD], by norm_num [List.getLastD]⟩,
    (adam_set_state_truncation [3, 3, -(3/4)] ⟨1, 1, 1, 1, [4], [4], 9⟩
        (by decide)).1
      (by norm_num [List.getLastD]) (by norm_num [List.getLastD])⟩

/-- The hyperparameters of an `AdamOptimizer`, which `run_step`,
`get_state` and `set_state` never modify. -/
def adamHyper (o : AdamOptimizer) : ℚ × ℚ × ℚ × ℚ :=
  (o.step_size, o.beta1, o.beta2, o.epsilon)

/-- Invariant of every reachable `AdamOptimizer` state: the two moving
averages have equal length and the step counter is non-negative. -/
def AdamInv (o : AdamOptimizer) : Prop :=
  o.first_moment_moving_average.length = o.second_moment_moving_average.length ∧
    0 ≤ o.t

theorem adam_runStepFrom_hyper (sq : ℚ → ℚ) (o : AdamOptimizer) (ci g : List ℚ) :
    adamHyper (AdamOptimizer.runStepFrom sq o ci g).1 = adamHyper o := by
  unfold AdamOptimizer.runStepFrom
  repeat' split
  all_goals rfl

theorem adam_run_step_hyper (sq : ℚ → ℚ) (o : AdamOptimizer) (ci g : List ℚ) :
    adamHyper (AdamOptimizer.run_step sq o ci g).1 = adamHyper o := by
  unfold AdamOptimizer.run_step
  split
  · rw [adam_runStepFrom_hyper]
    rfl
  · split
    · rfl
    · rw [adam_runStepFrom_hyper]

theorem adam_runStepFrom_inv (sq : ℚ → ℚ) (o : AdamOptimizer) (ci g : List ℚ)
    (h : AdamInv o) : AdamInv (AdamOptimizer.runStepFrom sq o ci g).1 := by
  obtain ⟨hlen, ht⟩ := h
  unfold AdamOptimizer.runStepFrom
  split
  · exact ⟨hlen, ht⟩
  · rename_i m2 h1
    split
    · rename_i e h2
      exfalso
      obtain ⟨l, hl⟩ := (npBroadcast_isOk_iff (fun x y => x + y)
          (o.second_moment_moving_average.map (fun x => o.beta2 * x))
          ((g.map (fun x => x * x)).map (fun x => (1 - o.beta2) * x))).mpr (by
        have hc := (npBroadcast_isOk_iff _ _ _).mp ⟨m2, h1⟩
        simp only [List.length_map] at hc ⊢
        omega)
      rw [h2] at hl
      cases hl
    · rename_i v2 h2
      have l1 := npBroadcast_ok_length _ _ _ _ h1
      have l2 := npBroadcast_ok_length _ _ _ _ h2
      simp only [List.length_map] at l1 l2
      split
      · exact ⟨show m2.length = v2.length by rw [l1, l2, hlen],
          show (0 : ℤ) ≤ o.t + 1 by omega⟩
      · split
        · exact ⟨show m2.length = v2.length by rw [l1, l2, hlen],
            show (0 : ℤ) ≤ o.t + 1 by omega⟩
        · exact ⟨show m2.length = v2.length by rw [l1, l2, hlen],
            show (0 : ℤ) ≤ o.t + 1 by omega⟩

theorem adam_run_step_inv (sq : ℚ → ℚ) (o : AdamOptimizer) (ci g : List ℚ)
    (h : AdamInv o) : AdamInv (AdamOptimizer.run_step sq o ci g).1 := by
  unfold AdamOptimizer.run_step
  split
  · exact adam_runStepFrom_inv _ _ _ _ ⟨by simp, le_refl 0⟩
  · split
    · exact h
    · exact adam_runStepFrom_inv _ _ _ _ h

theorem adam_runSeq_hyper (sq : ℚ → ℚ) (o : AdamOptimizer)
    (inputs : List (List ℚ × List ℚ)) :
    adamHyper (AdamOptimizer.runSeq sq o inputs).1 = adamHyper o := by
  induction inputs generalizing o with
  | nil => rfl
  | cons p rest ih =>
    simp only [AdamOptimizer.runSeq]
    rw [ih, adam_run_step_hyper]

theorem adam_runSeq_inv (sq : ℚ → ℚ) (o : AdamOptimizer)
    (inputs : List (List ℚ × List ℚ)) (h : AdamInv o) :
    AdamInv (AdamOptimizer.runSeq sq o inputs).1 := by
  induction inputs generalizing o with
  | nil => exact h
  | cons p rest ih =>
    simp only [AdamOptimizer.runSeq]
    exact ih _ (adam_run_step_inv _ _ _ _ h)

/-- `set_state (get_state σ)` on any optimizer with the invariant
restores exactly `σ`'s moving averages and step counter, with no
validation error. -/
theorem adam_set_get_roundtrip (σ fresh : AdamOptimizer) (hinv : AdamInv σ) :
    AdamOptimizer.set_state fresh σ.get_state =
      ({ fresh with first_moment_moving_average := σ.first_moment_moving_average, second_moment_moving_average := σ.second_moment_moving_average, t := σ.t }, none) := by
  obtain ⟨hlen, ht⟩ := hinv
  have hlen2 : σ.get_state.length =
      2 * σ.first_moment_moving_average.length + 1 := by
    simp [AdamOptimizer.get_state]
    omega
  have hm : σ.get_state.take (σ.get_state.length / 2) =
      σ.first_moment_moving_average := by
    have hdim : σ.get_state.length / 2 = σ.first_moment_moving_average.length := by
      omega
    rw [hdim]
    unfold AdamOptimizer.get_state
    rw [List.append_assoc]
    exact List.take_left _ _
  have hv : (σ.get_state.drop (σ.get_state.length / 2)).take
      (σ.get_state.length / 2) = σ.second_moment_moving_average := by
    have hdim : σ.get_state.length / 2 = σ.first_moment_moving_average.length := by
      omega
    rw [hdim]
    unfold AdamOptimizer.get_state
    rw [List.append_assoc, List.drop_left]
    exact List.take_left' hlen.symm
  have hlast : σ.get_state.getLastD 0 = (σ.t : ℚ) := by
    unfold AdamOptimizer.get_state
    exact List.getLastD_concat _ _ _
  simp only [AdamOptimizer.set_state]
  rw [if_neg (by omega)]
  rw [hm, hv, hlast, truncQ_intCast]
  rw [if_neg (by omega)]

attribute [ext] AdamOptimizer

/-- C1: Adam round-trip — run any non-empty sequence of `run_step` calls
from a fresh optimizer, capture `get_state`, construct a fresh
`AdamOptimizer` with the same hyperparameters and feed the captured state
to `set_state` (which succeeds); then feeding both instances the same
future parameter/gradient inputs produces identical subsequent `run_step`
outputs (and identical final states). -/
theorem adam_round_trip (sq : ℚ → ℚ) (step_size beta1 beta2 epsilon : ℚ)
    (inputs future : List (List ℚ × List ℚ)) (hne : inputs ≠ []) :
    (AdamOptimizer.set_state (AdamOptimizer.mk0 step_size beta1 beta2 epsilon)
        ((AdamOptimizer.runSeq sq (AdamOptimizer.mk0 step_size beta1 beta2 epsilon)
          inputs).1.get_state)).2 = none ∧
    AdamOptimizer.runSeq sq
        (AdamOptimizer.set_state (AdamOptimizer.mk0 step_size beta1 beta2 epsilon)
          ((AdamOptimizer.runSeq sq (AdamOptimizer.mk0 step_size beta1 beta2 epsilon)
            inputs).1.get_state)).1 future =
      AdamOptimizer.runSeq sq
        (AdamOptimizer.runSeq sq (AdamOptimizer.mk0 step_size beta1 beta2 epsilon)
          inputs).1 future := by
  set σ := (AdamOptimizer.runSeq sq (AdamOptimizer.mk0 step_size beta1 beta2 epsilon) inputs).1 with hσ
  have hinv : AdamInv σ := adam_runSeq_inv _ _ _ ⟨rfl, le_refl 0⟩
  have hrt := adam_set_get_roundtrip σ
    (AdamOptimizer.mk0 step_size beta1 beta2 epsilon) hinv
  have hhyp : adamHyper σ =
      adamHyper (AdamOptimizer.mk0 step_size beta1 beta2 epsilon) :=
    adam_runSeq_hyper _ _ _
  simp only [adamHyper, AdamOptimizer.mk0, Prod.mk.injEq] at hhyp
  obtain ⟨h1, h2, h3, h4⟩ := hhyp
  have hσeq : ({ AdamOptimizer.mk0 step_size beta1 beta2 epsilon with first_moment_moving_average := σ.first_moment_moving_average, second_moment_moving_average := σ.second_moment_moving_average, t := σ.t } : AdamOptimizer) = σ := by
    apply AdamOptimizer.ext <;> simp [AdamOptimizer.mk0, h1, h2, h3, h4]
  rw [hrt]
  refine ⟨rfl, ?_⟩
  rw [hσeq]

/-- Witness for C1: one step on a dimension-1 input, then one future
step, with identity square root and simple hyperparameters. -/
theorem adam_round_trip_witness :
    (([([1], [1])] : List (List ℚ × List ℚ)) ≠ []) ∧
    ((AdamOptimizer.set_state (AdamOptimizer.mk0 1 0 0 1)
        ((AdamOptimizer.runSeq (fun q => q) (AdamOptimizer.mk0 1 0 0 1)
          [([1], [1])]).1.get_state)).2 = none ∧
    AdamOptimizer.runSeq (fun q => q)
        (AdamOptimizer.set_state (AdamOptimizer.mk0 1 0 0 1)
          ((AdamOptimizer.runSeq (fun q => q) (AdamOptimizer.mk0 1 0 0 1)
            [([1], [1])]).1.get_state)).1 [([2], [2])] =
      AdamOptimizer.runSeq (fun q => q)
        (AdamOptimizer.runSeq (fun q => q) (AdamOptimizer.mk0 1 0 0 1)
          [([1], [1])]).1 [([2], [2])]) :=
  ⟨by simp,
    adam_round_trip (fun q => q) 1 0 0 1 [([1], [1])] [([2], [2])] (by simp)⟩
